import Mathlib

/-!
Shallow embedding of the Chyrp blog backend (chyrp-backend/main.py and
chyrp-backend/models.py): users, posts, the like/save/follow edge tables
and direct messages, together with the FastAPI endpoint handlers as pure
state-passing functions.  Timestamps are modelled as naturals; the SQL
store is a record of row lists; an aborting HTTPException is modelled as
an error value paired with the unchanged store (the transaction is never
committed on the error paths).
-/

namespace Chyrp

/-- A row of the `users` table (models.py `User`); the auth-only column
`hashed_password` is out of scope per the spec. -/
structure UserR where
  id : Nat
  email : String
  username : String
  full_name : String
  bio : String
  avatar_url : String
  created_at : Nat
  deriving DecidableEq, Repr

/-- A row of the `posts` table (models.py `Post`).  `media_url` is
`none` when the column is NULL (no media supplied at creation). -/
structure PostR where
  id : Nat
  title : String
  content : String
  post_type : String
  category : String
  media_url : Option String
  author_id : Nat
  created_at : Nat
  updated_at : Nat
  deriving DecidableEq, Repr

/-- A row of the `messages` table (models.py `Message`). -/
structure MessageR where
  id : Nat
  content : String
  sender_id : Nat
  receiver_id : Nat
  created_at : Nat
  is_read : Bool
  deriving DecidableEq, Repr

/-- The relational store: row lists for the entity tables and the three
association tables `post_likes`, `post_saves`, `user_followers`
(models.py lines 10-31).  An edge is a `(user_id, post_id)` pair for
likes/saves and a `(follower_id, following_id)` pair for follows. -/
structure DB where
  users : List UserR
  posts : List PostR
  likes : List (Nat × Nat)
  saves : List (Nat × Nat)
  follows : List (Nat × Nat)
  messages : List MessageR
  deriving DecidableEq, Repr

/-- An aborting FastAPI `HTTPException` (status code and detail). -/
structure HTTPError where
  status : Nat
  detail : String
  deriving DecidableEq, Repr

/-- `select(User).filter(User.username == username) ... .first()` -/
def findUserByUsername (db : DB) (uname : String) : Option UserR :=
  db.users.find? (fun u => u.username == uname)

/-- `select(User).filter(User.id == uid) ... .first()` -/
def findUserById (db : DB) (uid : Nat) : Option UserR :=
  db.users.find? (fun u => u.id == uid)

/-- `select(Post).filter(Post.id == post_id) ... .first()` -/
def findPost (db : DB) (pid : Nat) : Option PostR :=
  db.posts.find? (fun p => p.id == pid)

/-- `len(post.liked_by)`: cardinality of the like edges of one post. -/
def likesCount (db : DB) (pid : Nat) : Nat :=
  (db.likes.filter (fun e => e.2 == pid)).length

/-- Fresh autoincrement primary key for a list of row ids. -/
def nextId (ids : List Nat) : Nat := ids.foldr max 0 + 1

/-- Python truthiness applied to an `Optional[str]` form field:
`applyOpt cur v` models `if v: cur = v` — both `None` and the empty
string leave `cur` unchanged (main.py lines 123-126 and 324-329). -/
def applyOpt (cur : String) (v : Option String) : String :=
  match v with
  | none => cur
  | some s => if s.isEmpty then cur else s

/-- main.py `register_user` (lines 65-108): reject when the email or the
username is already taken, otherwise insert a fresh user row (bio and
avatar_url default to the empty string, models.py lines 41-42). -/
def register_user (db : DB) (email uname fullName : String) (now : Nat) :
    Except HTTPError UserR × DB :=
  if db.users.any (fun u => u.email == email || u.username == uname) then
    (.error ⟨400, "User with this email or username already exists"⟩, db)
  else
    let u : UserR :=
      { id := nextId (db.users.map (fun v => v.id)), email := email,
        username := uname, full_name := fullName, bio := "",
        avatar_url := "", created_at := now }
    (.ok u, { db with users := db.users ++ [u] })

/-- main.py `update_user_profile` (lines 115-142): truthiness-guarded
partial update of the caller's row; an uploaded avatar is stored under a
generated filename (modelled by the parameter). -/
def update_user_profile (db : DB) (fullName bio : Option String)
    (avatar : Option String) (cu : UserR) : Except HTTPError UserR × DB :=
  let u1 := { cu with full_name := applyOpt cu.full_name fullName }
  let u2 := { u1 with bio := applyOpt u1.bio bio }
  let u3 :=
    match avatar with
    | some fname => { u2 with avatar_url := "/uploads/images/" ++ fname }
    | none => u2
  (.ok u3, { db with users := db.users.map (fun v => if v.id == cu.id then u3 else v) })

/-- main.py `follow_user` (lines 162-187): 400 on self-follow, 404 when
the target username is absent, append-if-absent on the follow edges. -/
def follow_user (db : DB) (uname : String) (cu : UserR) :
    Except HTTPError String × DB :=
  if uname == cu.username then
    (.error ⟨400, "You cannot follow yourself"⟩, db)
  else
    match findUserByUsername db uname with
    | none => (.error ⟨404, "User not found"⟩, db)
    | some target =>
      if (cu.id, target.id) ∈ db.follows then
        (.ok ("Now following " ++ uname), db)
      else
        (.ok ("Now following " ++ uname),
         { db with follows := db.follows ++ [(cu.id, target.id)] })

/-- main.py `unfollow_user` (lines 189-208): 404 when the username is
absent, remove-if-present on the follow edges. -/
def unfollow_user (db : DB) (uname : String) (cu : UserR) :
    Except HTTPError String × DB :=
  match findUserByUsername db uname with
  | none => (.error ⟨404, "User not found"⟩, db)
  | some target =>
    if (cu.id, target.id) ∈ db.follows then
      (.ok ("Unfollowed " ++ uname),
       { db with follows := db.follows.filter (fun e => !(e == (cu.id, target.id))) })
    else
      (.ok ("Unfollowed " ++ uname), db)

/-- main.py `create_post` (lines 240-280): insert a post row; both
timestamp columns default to the insertion time (models.py lines 80-81);
the media url depends on the post type. -/
def create_post (db : DB) (title content ptype cat : String)
    (media : Option String) (now : Nat) (cu : UserR) : PostR × DB :=
  let murl :=
    match media with
    | some fname =>
      if ptype == "video" then some ("/uploads/videos/" ++ fname)
      else some ("/uploads/images/" ++ fname)
    | none => none
  let p : PostR :=
    { id := nextId (db.posts.map (fun q => q.id)), title := title,
      content := content, post_type := ptype, category := cat,
      media_url := murl, author_id := cu.id, created_at := now,
      updated_at := now }
  (p, { db with posts := db.posts ++ [p] })

/-- The successful body of main.py `update_post` (lines 324-346):
truthiness-guarded field updates, the media url rebuilt from the post's
type when a new upload is given, and an unconditional
`post.updated_at = datetime.utcnow()`. -/
def applyPostUpdate (post : PostR) (title content cat : Option String)
    (media : Option String) (now : Nat) : PostR :=
  { post with
    title := applyOpt post.title title,
    content := applyOpt post.content content,
    category := applyOpt post.category cat,
    media_url :=
      match media with
      | some fname =>
        if post.post_type == "video" then some ("/uploads/videos/" ++ fname)
        else some ("/uploads/images/" ++ fname)
      | none => post.media_url,
    updated_at := now }

/-- main.py `update_post` (lines 299-351): 404 when absent, 403 when the
caller is not the author, otherwise update the row in place. -/
def update_post (db : DB) (pid : Nat) (title content cat : Option String)
    (media : Option String) (now : Nat) (cu : UserR) :
    Except HTTPError PostR × DB :=
  match findPost db pid with
  | none => (.error ⟨404, "Post not found"⟩, db)
  | some post =>
    if post.author_id != cu.id then
      (.error ⟨403, "Not authorized to update this post"⟩, db)
    else
      (.ok (applyPostUpdate post title content cat media now),
       { db with posts := db.posts.map (fun q =>
           if q.id == post.id then applyPostUpdate post title content cat media now
           else q) })

/-- main.py `delete_post` (lines 353-377): 404 when absent, 403 when the
caller is not the author; `db.delete(post)` removes the post row and the
ORM deletes the secondary-table rows of its `liked_by`/`saved_by`
many-to-many relationships in the same transaction. -/
def delete_post (db : DB) (pid : Nat) (cu : UserR) :
    Except HTTPError String × DB :=
  match findPost db pid with
  | none => (.error ⟨404, "Post not found"⟩, db)
  | some post =>
    if post.author_id != cu.id then
      (.error ⟨403, "Not authorized to delete this post"⟩, db)
    else
      (.ok "Post deleted successfully",
       { db with
         posts := db.posts.filter (fun q => !(q.id == post.id)),
         likes := db.likes.filter (fun e => !(e.2 == post.id)),
         saves := db.saves.filter (fun e => !(e.2 == post.id)) })

/-- main.py `like_post` (lines 405-424): 404 when absent, append the
`(user_id, post_id)` like edge if absent, answer with the resulting like
count `len(post.liked_by)`. -/
def like_post (db : DB) (pid : Nat) (cu : UserR) :
    Except HTTPError (String × Nat) × DB :=
  match findPost db pid with
  | none => (.error ⟨404, "Post not found"⟩, db)
  | some post =>
    let db' :=
      if (cu.id, post.id) ∈ db.likes then db
      else { db with likes := db.likes ++ [(cu.id, post.id)] }
    (.ok ("Post liked", likesCount db' post.id), db')

/-- main.py `unlike_post` (lines 426-445): 404 when absent, remove the
like edge if present, answer with the resulting like count. -/
def unlike_post (db : DB) (pid : Nat) (cu : UserR) :
    Except HTTPError (String × Nat) × DB :=
  match findPost db pid with
  | none => (.error ⟨404, "Post not found"⟩, db)
  | some post =>
    let db' :=
      if (cu.id, post.id) ∈ db.likes then
        { db with likes := db.likes.filter (fun e => !(e == (cu.id, post.id))) }
      else db
    (.ok ("Post unliked", likesCount db' post.id), db')

/-- main.py `save_post` (lines 448-467): append-if-absent save edge. -/
def save_post (db : DB) (pid : Nat) (cu : UserR) :
    Except HTTPError String × DB :=
  match findPost db pid with
  | none => (.error ⟨404, "Post not found"⟩, db)
  | some post =>
    if (cu.id, post.id) ∈ db.saves then (.ok "Post saved", db)
    else (.ok "Post saved", { db with saves := db.saves ++ [(cu.id, post.id)] })

/-- main.py `unsave_post` (lines 469-488): remove-if-present save edge. -/
def unsave_post (db : DB) (pid : Nat) (cu : UserR) :
    Except HTTPError String × DB :=
  match findPost db pid with
  | none => (.error ⟨404, "Post not found"⟩, db)
  | some post =>
    if (cu.id, post.id) ∈ db.saves then
      (.ok "Post unsaved",
       { db with saves := db.saves.filter (fun e => !(e == (cu.id, post.id))) })
    else (.ok "Post unsaved", db)

/-- ORDER BY `Post.created_at` DESC: newest first. -/
def postAfter (a b : PostR) : Prop := b.created_at ≤ a.created_at

instance : DecidableRel postAfter :=
  fun a b => Nat.decLe b.created_at a.created_at

instance : IsTotal PostR postAfter :=
  ⟨fun a b => Nat.le_total b.created_at a.created_at⟩

instance : IsTrans PostR postAfter :=
  ⟨fun _ _ _ h1 h2 => Nat.le_trans h2 h1⟩

def sortPostsDesc (l : List PostR) : List PostR :=
  List.insertionSort postAfter l

/-- ORDER BY `Message.created_at` ASC: oldest first. -/
def msgBefore (a b : MessageR) : Prop := a.created_at ≤ b.created_at

instance : DecidableRel msgBefore :=
  fun a b => Nat.decLe a.created_at b.created_at

instance : IsTotal MessageR msgBefore :=
  ⟨fun a b => Nat.le_total a.created_at b.created_at⟩

instance : IsTrans MessageR msgBefore :=
  ⟨fun _ _ _ h1 h2 => Nat.le_trans h1 h2⟩

def sortMsgsAsc (l : List MessageR) : List MessageR :=
  List.insertionSort msgBefore l

/-- main.py lines 222-224: `if category and category != "all"` —
restrict to the category unless the parameter is falsy or "all". -/
def categoryFilter (posts : List PostR) (category : Option String) : List PostR :=
  match category with
  | some c =>
    if !c.isEmpty && c != "all" then posts.filter (fun p => p.category == c)
    else posts
  | none => posts

/-- main.py lines 226-230: the saved/liked scope restricts to posts
whose save/like edge-set contains the viewer. -/
def scopeFilter (db : DB) (posts : List PostR) (filter_type : Option String)
    (cu : UserR) : List PostR :=
  if filter_type == some "saved" then
    posts.filter (fun p => decide ((cu.id, p.id) ∈ db.saves))
  else if filter_type == some "liked" then
    posts.filter (fun p => decide ((cu.id, p.id) ∈ db.likes))
  else posts

/-- main.py `get_posts` (lines 211-238): WHERE clauses (category unless
falsy or "all"; saved/liked membership of the viewer), ORDER BY
created_at DESC, OFFSET skip LIMIT limit. -/
def get_posts (db : DB) (skip lim : Nat) (category : Option String)
    (filter_type : Option String) (cu : UserR) : List PostR :=
  ((sortPostsDesc (scopeFilter db (categoryFilter db.posts category) filter_type cu)).drop skip).take lim

/-- SQL LIKE / ILIKE pattern match, case-insensitive as in `ilike`:
`'%'` matches any substring, `'_'` any single character, every other
pattern character matches itself up to ASCII case. -/
def likeMatch : List Char → List Char → Bool
  | [], s => s.isEmpty
  | c :: ps, s =>
    if c == '%' then s.tails.any (fun suf => likeMatch ps suf)
    else
      match s with
      | [] => false
      | d :: s' => (c == '_' || c.toLower == d.toLower) && likeMatch ps s'

/-- The pattern of `ilike(f"%{q}%")` built by main.py `search`. -/
def likePat (q : String) : List Char := '%' :: (q.data ++ ['%'])

/-- One post row satisfies the search WHERE clause of main.py lines
633-637: title ILIKE %q% OR content ILIKE %q%. -/
def searchHit (q : String) (p : PostR) : Bool :=
  likeMatch (likePat q) p.title.data || likeMatch (likePat q) p.content.data

/-- main.py `search` (lines 632-643, the posts branch): WHERE title or
content ILIKE %q%, ORDER BY created_at DESC, OFFSET skip LIMIT limit. -/
def search_posts (db : DB) (q : String) (skip lim : Nat) : List PostR :=
  ((sortPostsDesc (db.posts.filter (searchHit q))).drop skip).take lim

/-- The specification's wording of the search predicate: the query is a
case-insensitive substring of the title or of the body. -/
def containsCI (q s : String) : Prop :=
  List.IsInfix (q.data.map Char.toLower) (s.data.map Char.toLower)

instance (q s : String) : Decidable (containsCI q s) :=
  List.decidableInfix _ _

/-- Spec-side search predicate for one post (for the refinement claim
about `searchPosts`). -/
def specSearchHit (q : String) (p : PostR) : Prop :=
  containsCI q p.title ∨ containsCI q p.content

instance (q : String) (p : PostR) : Decidable (specSearchHit q p) := by
  unfold specSearchHit; infer_instance

/-- The message rows of the conversation between the caller and user
`uid` (main.py lines 561-565). -/
def inConversation (uid cuid : Nat) (m : MessageR) : Bool :=
  (m.sender_id == cuid && m.receiver_id == uid) ||
  (m.sender_id == uid && m.receiver_id == cuid)

/-- main.py lines 572-574: a queried message is marked read when the
caller is its receiver and it was unread. -/
def markRead (cuid : Nat) (m : MessageR) : MessageR :=
  if m.receiver_id == cuid && !m.is_read then { m with is_read := true } else m

/-- main.py `get_conversation` (lines 555-578): select both directions
between the pair ORDER BY created_at ASC, mark every unread received
message as read (the returned rows are the updated ORM objects), commit. -/
def get_conversation (db : DB) (uid : Nat) (cu : UserR) :
    List MessageR × DB :=
  let conv := sortMsgsAsc (db.messages.filter (inConversation uid cu.id))
  (conv.map (markRead cu.id),
   { db with messages := db.messages.map (fun m => if inConversation uid cu.id m then markRead cu.id m else m) })

/-- main.py `send_message` (lines 580-607): 404 when the receiver id is
absent, otherwise insert a message row with `is_read` defaulting to
false (models.py line 142). -/
def send_message (db : DB) (uid : Nat) (content : String) (now : Nat)
    (cu : UserR) : Except HTTPError MessageR × DB :=
  match findUserById db uid with
  | none => (.error ⟨404, "User not found"⟩, db)
  | some _ =>
    let m : MessageR :=
      { id := nextId (db.messages.map (fun v => v.id)), content := content,
        sender_id := cu.id, receiver_id := uid, created_at := now,
        is_read := false }
    (.ok m, { db with messages := db.messages ++ [m] })

/-- One state-changing API call (the read-only GET endpoints never
commit and are modelled directly by the query functions above;
`get_conversation` commits its mark-as-read side effect and is
included).  Caller-taking endpoints carry the authenticated user id. -/
inductive Op where
  | register (email uname fullName : String) (now : Nat)
  | updateProfile (fullName bio avatar : Option String) (cuid : Nat)
  | follow (uname : String) (cuid : Nat)
  | unfollow (uname : String) (cuid : Nat)
  | createPost (title content ptype cat : String) (media : Option String) (now : Nat) (cuid : Nat)
  | updatePost (pid : Nat) (title content cat media : Option String) (now : Nat) (cuid : Nat)
  | deletePost (pid : Nat) (cuid : Nat)
  | like (pid : Nat) (cuid : Nat)
  | unlike (pid : Nat) (cuid : Nat)
  | save (pid : Nat) (cuid : Nat)
  | unsave (pid : Nat) (cuid : Nat)
  | sendMsg (uid : Nat) (content : String) (now : Nat) (cuid : Nat)
  | conversation (uid : Nat) (cuid : Nat)
  deriving DecidableEq, Repr

/-- Run an endpoint body under `Depends(get_current_user)`: the bearer
token resolves to an existing user row or the request never reaches the
body. -/
def withUser (db : DB) (cuid : Nat) (k : UserR → DB) : DB :=
  match findUserById db cuid with
  | some cu => k cu
  | none => db

/-- The state transition of one API call. -/
def step (op : Op) (db : DB) : DB :=
  match op with
  | .register e u f now => (register_user db e u f now).2
  | .updateProfile f b a cuid => withUser db cuid (fun cu => (update_user_profile db f b a cu).2)
  | .follow uname cuid => withUser db cuid (fun cu => (follow_user db uname cu).2)
  | .unfollow uname cuid => withUser db cuid (fun cu => (unfollow_user db uname cu).2)
  | .createPost t c ty cat m now cuid => withUser db cuid (fun cu => (create_post db t c ty cat m now cu).2)
  | .updatePost pid t c cat m now cuid => withUser db cuid (fun cu => (update_post db pid t c cat m now cu).2)
  | .deletePost pid cuid => withUser db cuid (fun cu => (delete_post db pid cu).2)
  | .like pid cuid => withUser db cuid (fun cu => (like_post db pid cu).2)
  | .unlike pid cuid => withUser db cuid (fun cu => (unlike_post db pid cu).2)
  | .save pid cuid => withUser db cuid (fun cu => (save_post db pid cu).2)
  | .unsave pid cuid => withUser db cuid (fun cu => (unsave_post db pid cu).2)
  | .sendMsg uid c now cuid => withUser db cuid (fun cu => (send_message db uid c now cu).2)
  | .conversation uid cuid => withUser db cuid (fun cu => (get_conversation db uid cu).2)

/-- The query contains no SQL LIKE wildcard character, so the ILIKE
pattern built from it can only do literal (case-insensitive) matching. -/
def noWild (q : List Char) : Bool :=
  q.all (fun c => !(c == '%') && !(c == '_'))

/-- The spec invariant on Post timestamps: updated_at never precedes
created_at. -/
def PostTimesOK (db : DB) : Prop :=
  ∀ p ∈ db.posts, p.created_at ≤ p.updated_at

/-- Wall-clock sanity of one call: the mutation time passed to an
update does not precede the creation time of any stored post
(`datetime.utcnow()` is monotone across requests). -/
def opTimeOK : Op → DB → Prop
  | .updatePost _ _ _ _ _ now _, db => ∀ p ∈ db.posts, p.created_at ≤ now
  | _, _ => True

/-! Concrete fixtures used by counterexamples and witnesses. -/

def exUserA : UserR :=
  { id := 1, email := "alice@x.io", username := "alice", full_name := "Alice",
    bio := "", avatar_url := "", created_at := 0 }

def exUserB : UserR :=
  { id := 2, email := "bob@x.io", username := "bob", full_name := "Bob",
    bio := "", avatar_url := "", created_at := 0 }

def exPostHello : PostR :=
  { id := 1, title := "Hello", content := "world", post_type := "blog",
    category := "sports", media_url := none, author_id := 1,
    created_at := 5, updated_at := 5 }

/-- alice and bob registered; alice owns post "Hello"; no edges yet. -/
def exDB : DB :=
  { users := [exUserA, exUserB], posts := [exPostHello], likes := [],
    saves := [], follows := [], messages := [] }

/-- Same store but bob already likes the post. -/
def exDBLiked : DB :=
  { exDB with likes := [(2, 1)] }

def scDB0 : DB :=
  { users := [exUserA, exUserB], posts := [], likes := [], saves := [],
    follows := [], messages := [] }

/-- alice sends "hi" to bob at time 1. -/
def scDB1 : DB := (send_message scDB0 2 "hi" 1 exUserA).2

/-- then bob sends "yo" to alice at time 2. -/
def scDB2 : DB := (send_message scDB1 1 "yo" 2 exUserB).2

def msgHi : MessageR :=
  { id := 1, content := "hi", sender_id := 1, receiver_id := 2,
    created_at := 1, is_read := false }

def exPost2 : PostR :=
  { id := 2, title := "Second", content := "post", post_type := "blog",
    category := "misc", media_url := none, author_id := 2,
    created_at := 7, updated_at := 7 }

/-- Two posts with like/save edges on both, for the delete cascade. -/
def exDB2 : DB :=
  { users := [exUserA, exUserB], posts := [exPostHello, exPost2],
    likes := [(2, 1), (1, 2)], saves := [(1, 2)], follows := [],
    messages := [] }

/-! ## Theorems -/

/-- C2: for every user, following oneself fails with HTTP 400
("You cannot follow yourself") and the store — in particular the
follow edge-set — is returned unchanged, so no edge is created. -/
theorem follow_self_always_fails (db : DB) (cu : UserR) :
    follow_user db cu.username cu =
      (Except.error ⟨400, "You cannot follow yourself"⟩, db) := by
  unfold follow_user
  simp

/-- C4: updating an existing post whose author is not the caller fails
with HTTP 403 ("Not authorized to update this post") and returns the
store unchanged, so every field of the post — title, content, category,
media reference and updated_at — is untouched. -/
theorem update_post_by_non_author_forbidden (db : DB) (pid : Nat)
    (title content cat media : Option String) (now : Nat) (cu : UserR)
    (post : PostR) (hfind : findPost db pid = some post)
    (hne : post.author_id ≠ cu.id) :
    update_post db pid title content cat media now cu =
      (Except.error ⟨403, "Not authorized to update this post"⟩, db) := by
  unfold update_post
  rw [hfind]
  simp [hne]

/-- Witness for C4: bob (id 2) cannot update alice's post. -/
theorem update_post_by_non_author_forbidden_witness :
    update_post exDB 1 none none none none 9 exUserB =
      (Except.error ⟨403, "Not authorized to update this post"⟩, exDB) :=
  update_post_by_non_author_forbidden exDB 1 none none none none 9 exUserB
    exPostHello (by decide) (by decide)

/-- C10: in `update_user_profile` and `update_post` a field supplied as
the empty string is treated exactly like an absent field (the code
tests Python truthiness, not presence), and a truthiness-guarded field
update can never turn a non-empty stored text into the empty string. -/
theorem empty_string_update_is_noop :
    (∀ db bio av cu, update_user_profile db (some "") bio av cu =
        update_user_profile db none bio av cu) ∧
    (∀ db fn av cu, update_user_profile db fn (some "") av cu =
        update_user_profile db fn none av cu) ∧
    (∀ db pid c cat m now cu, update_post db pid (some "") c cat m now cu =
        update_post db pid none c cat m now cu) ∧
    (∀ db pid t cat m now cu, update_post db pid t (some "") cat m now cu =
        update_post db pid t none cat m now cu) ∧
    (∀ db pid t c m now cu, update_post db pid t c (some "") m now cu =
        update_post db pid t c none m now cu) ∧
    (∀ cur v, cur ≠ "" → applyOpt cur v ≠ "") := by
  refine ⟨?_, ?_, ?_, ?_, ?_, ?_⟩
  · intro db bio av cu; rfl
  · intro db fn av cu; rfl
  · intro db pid c cat m now cu; rfl
  · intro db pid t cat m now cu; rfl
  · intro db pid t c m now cu; rfl
  · intro cur v hcur
    match v with
    | none => exact hcur
    | some s =>
      unfold applyOpt
      by_cases hs : s.isEmpty
      · simp [hs]; exact hcur
      · simp [hs]
        intro he
        subst he
        exact hs (by decide)

/-- Witness for C10: a non-empty stored value survives an
empty-string update. -/
theorem empty_string_update_is_noop_witness :
    applyOpt "x" (some "") ≠ "" :=
  empty_string_update_is_noop.2.2.2.2.2 "x" (some "") (by decide)

/-- C3: with an existing target B distinct from the caller A, following
twice leaves exactly one (A,B) edge in the follow edge-set (assuming the
pair-uniqueness invariant held before), and the second call is an
idempotent no-op on the store. -/
theorem follow_twice_one_edge (db : DB) (A B : UserR) (uname : String)
    (hfind : findUserByUsername db uname = some B)
    (hne : uname ≠ A.username)
    (hdup : List.count (A.id, B.id) db.follows ≤ 1) :
    List.count (A.id, B.id)
      ((follow_user ((follow_user db uname A).2) uname A).2).follows = 1 ∧
    (follow_user ((follow_user db uname A).2) uname A).2 =
      (follow_user db uname A).2 := by
  have hbeq : (uname == A.username) = false := by
    simp only [beq_eq_false_iff_ne]; exact hne
  by_cases hmem : (A.id, B.id) ∈ db.follows
  · have h1 : (follow_user db uname A).2 = db := by
      simp [follow_user, hbeq, hfind, hmem]
    rw [h1, h1]
    have hpos : 0 < List.count (A.id, B.id) db.follows := by
      simpa using List.count_pos_iff.mpr hmem
    exact ⟨by omega, rfl⟩
  · have h1 : (follow_user db uname A).2 =
        { db with follows := db.follows ++ [(A.id, B.id)] } := by
      simp [follow_user, hbeq, hfind, hmem]
    have hfind2 : findUserByUsername
        { db with follows := db.follows ++ [(A.id, B.id)] } uname = some B := hfind
    have hmem2 : (A.id, B.id) ∈ db.follows ++ [(A.id, B.id)] := by simp
    have h2 : (follow_user
        { db with follows := db.follows ++ [(A.id, B.id)] } uname A).2 =
        { db with follows := db.follows ++ [(A.id, B.id)] } := by
      simp [follow_user, hbeq, hfind2, hmem2]
    rw [h1, h2]
    have h0 : List.count (A.id, B.id) db.follows = 0 :=
      List.count_eq_zero.mpr hmem
    exact ⟨by simp [List.count_append, h0], rfl⟩

/-- Witness for C3: alice follows bob twice starting from no edges. -/
theorem follow_twice_one_edge_witness :
    List.count (exUserA.id, exUserB.id)
      ((follow_user ((follow_user exDB "bob" exUserA).2) "bob" exUserA).2).follows = 1 ∧
    (follow_user ((follow_user exDB "bob" exUserA).2) "bob" exUserA).2 =
      (follow_user exDB "bob" exUserA).2 :=
  follow_twice_one_edge exDB exUserA exUserB "bob" (by decide) (by decide) (by decide)

/-- C1 counterexample: read with the claim's universal quantification
over users, add-if-absent like followed by remove-if-present unlike is
not an involution on the like edge-set.  When bob already likes the
post, the edge is present before the two calls and absent after them. -/
theorem like_then_unlike_not_involutive :
    (2, 1) ∈ exDBLiked.likes ∧
    ¬ ((2, 1) ∈ ((unlike_post ((like_post exDBLiked 1 exUserB).2) 1 exUserB).2).likes) := by
  decide

/-- C1 amended: for an existing post P and a user U that does not
already like P, the POST like followed by the DELETE unlike returns the
like edge-set exactly to its original state; the like call answers the
resulting count (previous count plus one) and the unlike call answers
the restored previous count — 1 and then 0 in the spec's scenario where
P starts with no likes. -/
theorem like_then_unlike_roundtrip (db : DB) (pid : Nat) (u : UserR)
    (post : PostR) (hfind : findPost db pid = some post)
    (habs : (u.id, post.id) ∉ db.likes) :
    ((unlike_post ((like_post db pid u).2) pid u).2).likes = db.likes ∧
    (like_post db pid u).1 =
      Except.ok ("Post liked", likesCount db post.id + 1) ∧
    (unlike_post ((like_post db pid u).2) pid u).1 =
      Except.ok ("Post unliked", likesCount db post.id) := by
  have h1 : like_post db pid u =
      (Except.ok ("Post liked",
        likesCount { db with likes := db.likes ++ [(u.id, post.id)] } post.id),
       { db with likes := db.likes ++ [(u.id, post.id)] }) := by
    simp [like_post, hfind, habs]
  have hcnt : likesCount { db with likes := db.likes ++ [(u.id, post.id)] } post.id =
      likesCount db post.id + 1 := by
    simp [likesCount, List.filter_append]
  have hfind1 : findPost { db with likes := db.likes ++ [(u.id, post.id)] } pid =
      some post := hfind
  have hmem1 : (u.id, post.id) ∈ db.likes ++ [(u.id, post.id)] := by simp
  have hfilter : (db.likes ++ [(u.id, post.id)]).filter
      (fun e => !(e == (u.id, post.id))) = db.likes := by
    rw [List.filter_append]
    have hself : db.likes.filter (fun e => !(e == (u.id, post.id))) = db.likes :=
      List.filter_eq_self.mpr (fun x hx => by
        simp only [Bool.not_eq_true']
        exact beq_eq_false_iff_ne.mpr (fun hxe => habs (hxe ▸ hx)))
    simp [hself]
  have h2 : unlike_post { db with likes := db.likes ++ [(u.id, post.id)] } pid u =
      (Except.ok ("Post unliked", likesCount { db with likes := db.likes } post.id),
       { db with likes := db.likes }) := by
    simp [unlike_post, hfind1, hmem1, hfilter]
  rw [h1]
  simp only [h2, hcnt]
  exact ⟨trivial, trivial, trivial⟩

/-- Witness for C1's amended theorem: bob likes then unlikes alice's
post starting from no likes; counts are 1 then 0 and the edge-set is
restored to empty. -/
theorem like_then_unlike_roundtrip_witness :
    ((unlike_post ((like_post exDB 1 exUserB).2) 1 exUserB).2).likes = exDB.likes ∧
    (like_post exDB 1 exUserB).1 =
      Except.ok ("Post liked", likesCount exDB exPostHello.id + 1) ∧
    (unlike_post ((like_post exDB 1 exUserB).2) 1 exUserB).1 =
      Except.ok ("Post unliked", likesCount exDB exPostHello.id) :=
  like_then_unlike_roundtrip exDB 1 exUserB exPostHello (by decide) (by decide)

/-- The category WHERE clause only narrows the row set. -/
theorem mem_of_mem_categoryFilter {posts : List PostR} {cat : Option String}
    {p : PostR} (h : p ∈ categoryFilter posts cat) : p ∈ posts := by
  unfold categoryFilter at h
  split at h
  · split at h
    · exact List.mem_of_mem_filter h
    · exact h
  · exact h

/-- The saved/liked scope WHERE clause only narrows the row set. -/
theorem mem_of_mem_scopeFilter {db : DB} {posts : List PostR}
    {ft : Option String} {cu : UserR} {p : PostR}
    (h : p ∈ scopeFilter db posts ft cu) : p ∈ posts := by
  unfold scopeFilter at h
  split at h
  · exact List.mem_of_mem_filter h
  · split at h
    · exact List.mem_of_mem_filter h
    · exact h

/-- Every row produced by the post listing comes from the posts table. -/
theorem mem_of_mem_get_posts {db : DB} {skip lim : Nat}
    {cat ft : Option String} {cu : UserR} {p : PostR}
    (h : p ∈ get_posts db skip lim cat ft cu) : p ∈ db.posts := by
  unfold get_posts sortPostsDesc at h
  have h2 := List.mem_of_mem_drop (List.mem_of_mem_take h)
  have h3 := (List.perm_insertionSort postAfter _).mem_iff.mp h2
  exact mem_of_mem_categoryFilter (mem_of_mem_scopeFilter h3)

/-- C5: deleting one's own post removes the post row together with all
of its like and save edges in the same transaction, and afterwards no
listing — for any viewer, page and scope, in particular the saved and
liked scopes — contains a post with that id. -/
theorem delete_post_cascades (db : DB) (pid : Nat) (cu : UserR)
    (post : PostR) (hfind : findPost db pid = some post)
    (hauth : post.author_id = cu.id) :
    (∀ e ∈ ((delete_post db pid cu).2).likes, e.2 ≠ pid) ∧
    (∀ e ∈ ((delete_post db pid cu).2).saves, e.2 ≠ pid) ∧
    (∀ p ∈ ((delete_post db pid cu).2).posts, p.id ≠ pid) ∧
    (∀ viewer skip lim cat ft p,
      p ∈ get_posts ((delete_post db pid cu).2) skip lim cat ft viewer →
        p.id ≠ pid) := by
  have hpid : post.id = pid := by
    unfold findPost at hfind
    have hp := List.find?_some hfind
    simpa using hp
  have hdel : (delete_post db pid cu).2 =
      { db with
        posts := db.posts.filter (fun q => !(q.id == post.id)),
        likes := db.likes.filter (fun e => !(e.2 == post.id)),
        saves := db.saves.filter (fun e => !(e.2 == post.id)) } := by
    simp [delete_post, hfind, hauth]
  rw [hdel]
  refine ⟨?_, ?_, ?_, ?_⟩
  · intro e he
    have hf := List.of_mem_filter he
    simp only [Bool.not_eq_true', beq_eq_false_iff_ne] at hf
    exact fun h => hf (by rw [h, hpid])
  · intro e he
    have hf := List.of_mem_filter he
    simp only [Bool.not_eq_true', beq_eq_false_iff_ne] at hf
    exact fun h => hf (by rw [h, hpid])
  · intro p hp
    have hf := List.of_mem_filter hp
    simp only [Bool.not_eq_true', beq_eq_false_iff_ne] at hf
    exact fun h => hf (by rw [h, hpid])
  · intro viewer skip lim cat ft p hp
    have hm := mem_of_mem_get_posts hp
    have hf := List.of_mem_filter hm
    simp only [Bool.not_eq_true', beq_eq_false_iff_ne] at hf
    exact fun h => hf (by rw [h, hpid])

/-- Witness for C5: alice deletes her post; the surviving like edge of
the other post does not reference the deleted id. -/
theorem delete_post_cascades_witness :
    ((delete_post exDB2 1 exUserA).2).likes = [(1, 2)] ∧
    ((1, 2) : Nat × Nat).2 ≠ 1 :=
  ⟨by decide,
   (delete_post_cascades exDB2 1 exUserA exPostHello (by decide) (by decide)).1
     (1, 2) (by decide)⟩

/-- Marking a message read never changes its timestamp. -/
theorem markRead_created_at (c : Nat) (m : MessageR) :
    (markRead c m).created_at = m.created_at := by
  unfold markRead; split <;> rfl

/-- C6: the conversation listing returns exactly the messages between
the caller and the other user (each shown with its read flag already
updated), ordered oldest first; its side effect on the store flips
`is_read` to true on precisely the stored conversation messages whose
receiver is the caller and which were unread, leaving every other
message untouched.  Concretely, after send(alice→bob,"hi") then
send(bob→alice,"yo"), bob's view of the conversation is ["hi","yo"]
and afterwards the message from alice is marked read. -/
theorem conversation_lists_and_marks_read (db : DB) (uid : Nat) (cu : UserR) :
    ((get_conversation db uid cu).1).Perm
      ((db.messages.filter (inConversation uid cu.id)).map (markRead cu.id)) ∧
    List.Sorted msgBefore ((get_conversation db uid cu).1) ∧
    (∀ (i : Nat) (m m' : MessageR), db.messages[i]? = some m →
      (((get_conversation db uid cu).2).messages)[i]? = some m' →
      ((inConversation uid cu.id m = true ∧ m.receiver_id = cu.id ∧
          m.is_read = false) → m' = { m with is_read := true }) ∧
      (¬(inConversation uid cu.id m = true ∧ m.receiver_id = cu.id ∧
          m.is_read = false) → m' = m)) ∧
    ((get_conversation scDB2 1 exUserB).1.map (fun m => m.content) =
      ["hi", "yo"]) ∧
    (((get_conversation scDB2 1 exUserB).2).messages.map (fun m => m.is_read) =
      [true, false]) := by
  refine ⟨?_, ?_, ?_, by decide, by decide⟩
  · exact (List.perm_insertionSort msgBefore _).map (markRead cu.id)
  · have hs : List.Sorted msgBefore
        (sortMsgsAsc (db.messages.filter (inConversation uid cu.id))) :=
      List.sorted_insertionSort msgBefore _
    refine List.Pairwise.map (markRead cu.id) ?_ hs
    intro a b hab
    unfold msgBefore at hab ⊢
    rw [markRead_created_at, markRead_created_at]
    exact hab
  · intro i m m' hm hm'
    have hmsgs : ((get_conversation db uid cu).2).messages =
        db.messages.map
          (fun m => if inConversation uid cu.id m then markRead cu.id m else m) := rfl
    rw [hmsgs, List.getElem?_map, hm] at hm'
    have hgm : m' = (if inConversation uid cu.id m then markRead cu.id m else m) := by
      symm; simpa using hm'
    constructor
    · rintro ⟨hconv, hrecv, hread⟩
      rw [hgm]
      simp [hconv, markRead, hrecv, hread]
    · intro hnot
      rw [hgm]
      by_cases hconv : inConversation uid cu.id m = true
      · simp only [hconv, if_true]
        unfold markRead
        split
        · next hcond =>
          exfalso
          apply hnot
          refine ⟨hconv, ?_, ?_⟩
          · have := hcond
            simp only [Bool.and_eq_true, beq_iff_eq, Bool.not_eq_true'] at this
            exact this.1
          · have := hcond
            simp only [Bool.and_eq_true, beq_iff_eq, Bool.not_eq_true'] at this
            exact this.2
        · rfl
      · simp [hconv]

/-- Witness for C6: in the two-message scenario, the stored copy of the
message from alice is exactly its read-marked version after bob views
the conversation. -/
theorem conversation_lists_and_marks_read_witness :
    ({ msgHi with is_read := true } : MessageR) =
      { msgHi with is_read := true } :=
  (((conversation_lists_and_marks_read scDB2 1 exUserB).2.2.1) 0 msgHi
    { msgHi with is_read := true } (by decide) (by decide)).1
    ⟨by decide, by decide, by decide⟩

/-! Frame lemmas: which tables each endpoint leaves untouched. -/

theorem register_user_posts_eq (db : DB) (e u f : String) (now : Nat) :
    ((register_user db e u f now).2).posts = db.posts := by
  unfold register_user; split <;> rfl

theorem update_user_profile_posts_eq (db : DB) (fn b av : Option String)
    (cu : UserR) : ((update_user_profile db fn b av cu).2).posts = db.posts := by
  unfold update_user_profile; split <;> rfl

theorem follow_user_posts_eq (db : DB) (un : String) (cu : UserR) :
    ((follow_user db un cu).2).posts = db.posts := by
  unfold follow_user
  repeat' split
  all_goals rfl

theorem unfollow_user_posts_eq (db : DB) (un : String) (cu : UserR) :
    ((unfollow_user db un cu).2).posts = db.posts := by
  unfold unfollow_user
  repeat' split
  all_goals rfl

theorem like_post_posts_eq (db : DB) (pid : Nat) (cu : UserR) :
    ((like_post db pid cu).2).posts = db.posts := by
  unfold like_post
  repeat' split
  all_goals rfl

theorem unlike_post_posts_eq (db : DB) (pid : Nat) (cu : UserR) :
    ((unlike_post db pid cu).2).posts = db.posts := by
  unfold unlike_post
  repeat' split
  all_goals rfl

theorem save_post_posts_eq (db : DB) (pid : Nat) (cu : UserR) :
    ((save_post db pid cu).2).posts = db.posts := by
  unfold save_post
  repeat' split
  all_goals rfl

theorem unsave_post_posts_eq (db : DB) (pid : Nat) (cu : UserR) :
    ((unsave_post db pid cu).2).posts = db.posts := by
  unfold unsave_post
  repeat' split
  all_goals rfl

theorem send_message_posts_eq (db : DB) (uid : Nat) (c : String) (now : Nat)
    (cu : UserR) : ((send_message db uid c now cu).2).posts = db.posts := by
  unfold send_message; split <;> rfl

theorem get_conversation_posts_eq (db : DB) (uid : Nat) (cu : UserR) :
    ((get_conversation db uid cu).2).posts = db.posts := rfl

theorem register_user_messages_eq (db : DB) (e u f : String) (now : Nat) :
    ((register_user db e u f now).2).messages = db.messages := by
  unfold register_user; split <;> rfl

theorem update_user_profile_messages_eq (db : DB) (fn b av : Option String)
    (cu : UserR) : ((update_user_profile db fn b av cu).2).messages = db.messages := by
  unfold update_user_profile; split <;> rfl

theorem follow_user_messages_eq (db : DB) (un : String) (cu : UserR) :
    ((follow_user db un cu).2).messages = db.messages := by
  unfold follow_user
  repeat' split
  all_goals rfl

theorem unfollow_user_messages_eq (db : DB) (un : String) (cu : UserR) :
    ((unfollow_user db un cu).2).messages = db.messages := by
  unfold unfollow_user
  repeat' split
  all_goals rfl

theorem create_post_messages_eq (db : DB) (t c ty cat : String)
    (media : Option String) (now : Nat) (cu : UserR) :
    ((create_post db t c ty cat media now cu).2).messages = db.messages := rfl

theorem update_post_messages_eq (db : DB) (pid : Nat) (t c cat m : Option String)
    (now : Nat) (cu : UserR) :
    ((update_post db pid t c cat m now cu).2).messages = db.messages := by
  unfold update_post
  repeat' split
  all_goals rfl

theorem delete_post_messages_eq (db : DB) (pid : Nat) (cu : UserR) :
    ((delete_post db pid cu).2).messages = db.messages := by
  unfold delete_post
  repeat' split
  all_goals rfl

theorem like_post_messages_eq (db : DB) (pid : Nat) (cu : UserR) :
    ((like_post db pid cu).2).messages = db.messages := by
  unfold like_post
  repeat' split
  all_goals rfl

theorem unlike_post_messages_eq (db : DB) (pid : Nat) (cu : UserR) :
    ((unlike_post db pid cu).2).messages = db.messages := by
  unfold unlike_post
  repeat' split
  all_goals rfl

theorem save_post_messages_eq (db : DB) (pid : Nat) (cu : UserR) :
    ((save_post db pid cu).2).messages = db.messages := by
  unfold save_post
  repeat' split
  all_goals rfl

theorem unsave_post_messages_eq (db : DB) (pid : Nat) (cu : UserR) :
    ((unsave_post db pid cu).2).messages = db.messages := by
  unfold unsave_post
  repeat' split
  all_goals rfl

/-- The timestamp invariant only depends on the posts table. -/
theorem PostTimesOK_of_posts_eq {db db' : DB} (h : db'.posts = db.posts)
    (hinv : PostTimesOK db) : PostTimesOK db' := by
  unfold PostTimesOK at *
  rw [h]
  exact hinv

/-- Deleting a post only removes rows from the posts table. -/
theorem mem_of_mem_delete_post_posts {db : DB} {pid : Nat} {cu : UserR}
    {p : PostR} (h : p ∈ ((delete_post db pid cu).2).posts) : p ∈ db.posts := by
  unfold delete_post at h
  split at h
  · exact h
  · split at h
    · exact h
    · exact List.mem_of_mem_filter h

/-- Every posts-table row after `update_post` is either an old row or
the updated image of the looked-up post. -/
theorem mem_update_post_posts {db : DB} {pid : Nat} {t c cat m : Option String}
    {now : Nat} {cu : UserR} {p : PostR}
    (h : p ∈ ((update_post db pid t c cat m now cu).2).posts) :
    p ∈ db.posts ∨
      ∃ post, findPost db pid = some post ∧ p = applyPostUpdate post t c cat m now := by
  unfold update_post at h
  cases hf : findPost db pid with
  | none => rw [hf] at h; exact Or.inl h
  | some post =>
    rw [hf] at h
    by_cases hauth : (post.author_id != cu.id) = true
    · simp only [hauth, if_true] at h
      exact Or.inl h
    · simp only [hauth, Bool.false_eq_true, if_false] at h
      rcases List.mem_map.mp h with ⟨q, hq, hpq⟩
      by_cases hid : (q.id == post.id) = true
      · right
        exact ⟨post, rfl, by rw [← hpq]; simp [hid]⟩
      · left
        rw [← hpq]
        simp only [hid, if_false, Bool.false_eq_true]
        exact hq

/-- Case split on the authenticated-user lookup of an endpoint call. -/
theorem withUser_cases (db : DB) (cuid : Nat) (k : UserR → DB) (P : DB → Prop)
    (h1 : ∀ cu, P (k cu)) (h2 : P db) : P (withUser db cuid k) := by
  unfold withUser
  split
  · apply h1
  · exact h2

/-- C8: the invariant `updated_at ≥ created_at` is preserved by every
API call (given that wall-clock time never runs backwards relative to
stored creation times), and a successful `update_post` stamps the
mutation time into `updated_at` both in the returned value and in the
stored row. -/
theorem post_timestamps_invariant :
    (∀ op db, PostTimesOK db → opTimeOK op db → PostTimesOK (step op db)) ∧
    (∀ db pid t c cat m now cu r db',
      update_post db pid t c cat m now cu = (Except.ok r, db') →
      r.updated_at = now ∧ ∀ p ∈ db'.posts, p.id = pid → p.updated_at = now) := by
  constructor
  · intro op db hinv htime
    cases op with
    | register e u f now =>
      simp only [step]
      exact PostTimesOK_of_posts_eq (register_user_posts_eq db e u f now) hinv
    | updateProfile f b a cuid =>
      simp only [step]
      exact withUser_cases db cuid _ PostTimesOK
        (fun cu => PostTimesOK_of_posts_eq (update_user_profile_posts_eq db f b a cu) hinv) hinv
    | follow un cuid =>
      simp only [step]
      exact withUser_cases db cuid _ PostTimesOK
        (fun cu => PostTimesOK_of_posts_eq (follow_user_posts_eq db un cu) hinv) hinv
    | unfollow un cuid =>
      simp only [step]
      exact withUser_cases db cuid _ PostTimesOK
        (fun cu => PostTimesOK_of_posts_eq (unfollow_user_posts_eq db un cu) hinv) hinv
    | createPost t c ty cat m now cuid =>
      simp only [step]
      refine withUser_cases db cuid _ PostTimesOK (fun cu => ?_) hinv
      intro p hp
      simp only [create_post, List.mem_append, List.mem_singleton] at hp
      rcases hp with h | h
      · exact hinv p h
      · subst h
        exact Nat.le_refl _
    | updatePost pid t c cat m now cuid =>
      simp only [step]
      refine withUser_cases db cuid _ PostTimesOK (fun cu => ?_) hinv
      intro p hp
      rcases mem_update_post_posts hp with h | ⟨post, hfind, hpeq⟩
      · exact hinv p h
      · subst hpeq
        have hpost : post ∈ db.posts := by
          unfold findPost at hfind
          exact List.mem_of_find?_eq_some hfind
        exact htime post hpost
    | deletePost pid cuid =>
      simp only [step]
      refine withUser_cases db cuid _ PostTimesOK (fun cu => ?_) hinv
      intro p hp
      exact hinv p (mem_of_mem_delete_post_posts hp)
    | like pid cuid =>
      simp only [step]
      exact withUser_cases db cuid _ PostTimesOK
        (fun cu => PostTimesOK_of_posts_eq (like_post_posts_eq db pid cu) hinv) hinv
    | unlike pid cuid =>
      simp only [step]
      exact withUser_cases db cuid _ PostTimesOK
        (fun cu => PostTimesOK_of_posts_eq (unlike_post_posts_eq db pid cu) hinv) hinv
    | save pid cuid =>
      simp only [step]
      exact withUser_cases db cuid _ PostTimesOK
        (fun cu => PostTimesOK_of_posts_eq (save_post_posts_eq db pid cu) hinv) hinv
    | unsave pid cuid =>
      simp only [step]
      exact withUser_cases db cuid _ PostTimesOK
        (fun cu => PostTimesOK_of_posts_eq (unsave_post_posts_eq db pid cu) hinv) hinv
    | sendMsg uid c now cuid =>
      simp only [step]
      exact withUser_cases db cuid _ PostTimesOK
        (fun cu => PostTimesOK_of_posts_eq (send_message_posts_eq db uid c now cu) hinv) hinv
    | conversation uid cuid =>
      simp only [step]
      exact withUser_cases db cuid _ PostTimesOK
        (fun cu => PostTimesOK_of_posts_eq (get_conversation_posts_eq db uid cu) hinv) hinv
  · intro db pid t c cat m now cu r db' h
    unfold update_post at h
    cases hf : findPost db pid with
    | none =>
      rw [hf] at h
      simp at h
    | some post =>
      rw [hf] at h
      by_cases hauth : (post.author_id != cu.id) = true
      · simp only [hauth, if_true] at h
        simp at h
      · simp only [hauth, Bool.false_eq_true, if_false] at h
        injection h with h1 h2
        injection h1 with h1
        subst h2
        have hpostid : post.id = pid := by
          unfold findPost at hf
          simpa using List.find?_some hf
        constructor
        · rw [← h1]; rfl
        · intro p hp hpid2
          rcases List.mem_map.mp hp with ⟨q, hq, hpq⟩
          by_cases hid : (q.id == post.id) = true
          · rw [← hpq]
            simp [hid, applyPostUpdate]
          · exfalso
            rw [← hpq] at hpid2
            simp only [hid, if_false, Bool.false_eq_true] at hpid2
            have hqid : q.id ≠ post.id := by simpa using hid
            exact hqid (hpid2.trans hpostid.symm)

/-- Witness for C8: the invariant survives a like call on the example
store. -/
theorem post_timestamps_invariant_witness :
    exPostHello.created_at ≤ exPostHello.updated_at :=
  post_timestamps_invariant.1 (Op.like 1 2) exDB
    (by unfold PostTimesOK; decide) (by exact True.intro) exPostHello (by decide)

/-- Marking a message read touches no identity or payload column. -/
theorem markRead_fields (c : Nat) (m : MessageR) :
    (markRead c m).id = m.id ∧ (markRead c m).content = m.content ∧
    (markRead c m).sender_id = m.sender_id ∧
    (markRead c m).receiver_id = m.receiver_id := by
  unfold markRead
  split <;> exact ⟨rfl, rfl, rfl, rfl⟩

/-- Read-flag monotonicity is immediate for a call that leaves the
messages table untouched. -/
theorem read_monotone_of_frame {db db' : DB} {i : Nat} (P : MessageR → Prop)
    (heq : db'.messages = db.messages) :
    (∀ m m' : MessageR, db.messages[i]? = some m →
      (db'.messages)[i]? = some m' →
      m'.id = m.id ∧ m'.content = m.content ∧ m'.sender_id = m.sender_id ∧
      m'.receiver_id = m.receiver_id ∧ m'.created_at = m.created_at ∧
      (m.is_read = true → m'.is_read = true) ∧
      (m.is_read = false → m'.is_read = true → P m)) ∧
    (∀ m' : MessageR, db.messages.length ≤ i → (db'.messages)[i]? = some m' →
      m'.is_read = false) := by
  constructor
  · intro m m' hm hm'
    rw [heq, hm] at hm'
    injection hm' with hm'
    subst hm'
    refine ⟨rfl, rfl, rfl, rfl, rfl, fun h => h, fun h1 h2 => ?_⟩
    rw [h1] at h2
    exact absurd h2 (by decide)
  · intro m' hlen hm'
    rw [heq, List.getElem?_eq_none hlen] at hm'
    exact Option.noConfusion hm'

/-- C7: across every API call, a stored message keeps its identity,
payload and endpoints; its read flag never reverts from true to false;
the only call that flips it from false to true is a conversation view
whose caller is the message's receiver; and any newly inserted message
starts unread. -/
theorem message_read_flag_monotone (op : Op) (db : DB) (i : Nat) :
    (∀ m m' : MessageR, db.messages[i]? = some m →
      ((step op db).messages)[i]? = some m' →
      m'.id = m.id ∧ m'.content = m.content ∧ m'.sender_id = m.sender_id ∧
      m'.receiver_id = m.receiver_id ∧ m'.created_at = m.created_at ∧
      (m.is_read = true → m'.is_read = true) ∧
      (m.is_read = false → m'.is_read = true →
        ∃ uid, op = Op.conversation uid m.receiver_id)) ∧
    (∀ m' : MessageR, db.messages.length ≤ i →
      ((step op db).messages)[i]? = some m' → m'.is_read = false) := by
  cases op with
  | register e u f now =>
    exact read_monotone_of_frame _ (register_user_messages_eq db e u f now)
  | updateProfile f b a cuid =>
    simp only [step, withUser]
    cases hfu : findUserById db cuid with
    | none => exact read_monotone_of_frame _ rfl
    | some cu => exact read_monotone_of_frame _ (update_user_profile_messages_eq db f b a cu)
  | follow un cuid =>
    simp only [step, withUser]
    cases hfu : findUserById db cuid with
    | none => exact read_monotone_of_frame _ rfl
    | some cu => exact read_monotone_of_frame _ (follow_user_messages_eq db un cu)
  | unfollow un cuid =>
    simp only [step, withUser]
    cases hfu : findUserById db cuid with
    | none => exact read_monotone_of_frame _ rfl
    | some cu => exact read_monotone_of_frame _ (unfollow_user_messages_eq db un cu)
  | createPost t c ty cat m now cuid =>
    simp only [step, withUser]
    cases hfu : findUserById db cuid with
    | none => exact read_monotone_of_frame _ rfl
    | some cu => exact read_monotone_of_frame _ (create_post_messages_eq db t c ty cat m now cu)
  | updatePost pid t c cat m now cuid =>
    simp only [step, withUser]
    cases hfu : findUserById db cuid with
    | none => exact read_monotone_of_frame _ rfl
    | some cu => exact read_monotone_of_frame _ (update_post_messages_eq db pid t c cat m now cu)
  | deletePost pid cuid =>
    simp only [step, withUser]
    cases hfu : findUserById db cuid with
    | none => exact read_monotone_of_frame _ rfl
    | some cu => exact read_monotone_of_frame _ (delete_post_messages_eq db pid cu)
  | like pid cuid =>
    simp only [step, withUser]
    cases hfu : findUserById db cuid with
    | none => exact read_monotone_of_frame _ rfl
    | some cu => exact read_monotone_of_frame _ (like_post_messages_eq db pid cu)
  | unlike pid cuid =>
    simp only [step, withUser]
    cases hfu : findUserById db cuid with
    | none => exact read_monotone_of_frame _ rfl
    | some cu => exact read_monotone_of_frame _ (unlike_post_messages_eq db pid cu)
  | save pid cuid =>
    simp only [step, withUser]
    cases hfu : findUserById db cuid with
    | none => exact read_monotone_of_frame _ rfl
    | some cu => exact read_monotone_of_frame _ (save_post_messages_eq db pid cu)
  | unsave pid cuid =>
    simp only [step, withUser]
    cases hfu : findUserById db cuid with
    | none => exact read_monotone_of_frame _ rfl
    | some cu => exact read_monotone_of_frame _ (unsave_post_messages_eq db pid cu)
  | sendMsg uid c now cuid =>
    simp only [step, withUser]
    cases hfu : findUserById db cuid with
    | none => exact read_monotone_of_frame _ rfl
    | some cu =>
      unfold send_message
      cases hrecv : findUserById db uid with
      | none => exact read_monotone_of_frame _ rfl
      | some ru =>
        constructor
        · intro m m' hm hm'
          have hlt : i < db.messages.length := by
            rcases List.getElem?_eq_some.mp hm with ⟨hlt, _⟩
            exact hlt
          rw [List.getElem?_append_left hlt, hm] at hm'
          injection hm' with hm'
          subst hm'
          refine ⟨rfl, rfl, rfl, rfl, rfl, fun h => h, fun h1 h2 => ?_⟩
          rw [h1] at h2
          exact absurd h2 (by decide)
        · intro m' hlen hm'
          rw [List.getElem?_append_right hlen] at hm'
          match hj : i - db.messages.length, hm' with
          | 0, hm' =>
            simp only [List.getElem?_cons_zero, Option.some_inj] at hm'
            rw [← hm']
          | j + 1, hm' =>
            simp at hm'
  | conversation uid cuid =>
    simp only [step, withUser]
    cases hfu : findUserById db cuid with
    | none => exact read_monotone_of_frame _ rfl
    | some cu =>
      have hcuid : cu.id = cuid := by
        unfold findUserById at hfu
        simpa using List.find?_some hfu
      constructor
      · intro m m' hm hm'
        have hmsgs : ((get_conversation db uid cu).2).messages =
            db.messages.map
              (fun m => if inConversation uid cu.id m then markRead cu.id m else m) := rfl
        rw [hmsgs, List.getElem?_map, hm] at hm'
        have hgm : m' = (if inConversation uid cu.id m then markRead cu.id m else m) := by
          symm; simpa using hm'
        by_cases hconv : inConversation uid cu.id m = true
        · rw [hgm]
          simp only [hconv, if_true]
          obtain ⟨f1, f2, f3, f4⟩ := markRead_fields cu.id m
          refine ⟨f1, f2, f3, f4, markRead_created_at cu.id m, ?_, ?_⟩
          · intro hread
            unfold markRead
            split <;> simp [hread]
          · intro h1 h2
            unfold markRead at h2
            split at h2
            · next hcond =>
              refine ⟨uid, ?_⟩
              have hrecvid : m.receiver_id = cu.id := by
                simp only [Bool.and_eq_true, beq_iff_eq] at hcond
                exact hcond.1
              rw [hrecvid, hcuid]
            · rw [h1] at h2
              exact absurd h2 (by decide)
        · have hgm2 : m' = m := by rw [hgm, if_neg hconv]
          subst hgm2
          refine ⟨rfl, rfl, rfl, rfl, rfl, fun h => h, fun h1 h2 => ?_⟩
          rw [h1] at h2
          exact absurd h2 (by decide)
      · intro m' hlen hm'
        have hmsgs : ((get_conversation db uid cu).2).messages =
            db.messages.map
              (fun m => if inConversation uid cu.id m then markRead cu.id m else m) := rfl
        rw [hmsgs, List.getElem?_map, List.getElem?_eq_none hlen] at hm'
        exact Option.noConfusion hm'

/-- Witness for C7: viewing the conversation is exactly what flips the
stored flag of the message from alice, and every column but the flag is
preserved. -/
theorem message_read_flag_monotone_witness :
    ({ msgHi with is_read := true } : MessageR).id = msgHi.id ∧
    ({ msgHi with is_read := true } : MessageR).content = msgHi.content ∧
    ({ msgHi with is_read := true } : MessageR).sender_id = msgHi.sender_id ∧
    ({ msgHi with is_read := true } : MessageR).receiver_id = msgHi.receiver_id ∧
    ({ msgHi with is_read := true } : MessageR).created_at = msgHi.created_at ∧
    (msgHi.is_read = true → ({ msgHi with is_read := true } : MessageR).is_read = true) ∧
    (msgHi.is_read = false → ({ msgHi with is_read := true } : MessageR).is_read = true →
      ∃ uid, Op.conversation 1 2 = Op.conversation uid msgHi.receiver_id) :=
  (message_read_flag_monotone (Op.conversation 1 2) scDB2 0).1 msgHi
    { msgHi with is_read := true } (by decide) (by decide)

/-- A leading ILIKE `%` matches an arbitrary prefix: the rest of the
pattern is matched against some suffix. -/
theorem likeMatch_percent (ps s : List Char) :
    likeMatch ('%' :: ps) s = true ↔
      ∃ suf, suf <:+ s ∧ likeMatch ps suf = true := by
  show (if ('%' : Char) == '%' then s.tails.any (fun suf => likeMatch ps suf)
        else
          match s with
          | [] => false
          | d :: s' => (('%' : Char) == '_' || Char.toLower '%' == d.toLower) && likeMatch ps s') = true ↔ _
  simp only [beq_self_eq_true, if_true, List.any_eq_true, List.mem_tails]

/-- A wildcard-free pattern head compared against the empty string. -/
theorem likeMatch_cons_nil {c : Char} {l : List Char}
    (hc : (c == '%') = false) : likeMatch (c :: l) [] = false := by
  simp [likeMatch, hc]

/-- Unfolding one literal pattern character against one text character. -/
theorem likeMatch_cons_cons {c : Char} {l : List Char} {d : Char}
    {s : List Char} (hc : (c == '%') = false) :
    likeMatch (c :: l) (d :: s) =
      ((c == '_' || c.toLower == d.toLower) && likeMatch l s) := by
  simp [likeMatch, hc]

/-- Splitting the wildcard-freeness of a pattern at its head. -/
theorem noWild_cons {c : Char} {q : List Char} :
    noWild (c :: q) = true ↔ c ≠ '%' ∧ c ≠ '_' ∧ noWild q = true := by
  simp [noWild, List.all_cons, and_assoc]

/-- A wildcard-free pattern followed by `%` matches a string iff some
prefix of the string equals the pattern up to ASCII case. -/
theorem likeMatch_plain_append_percent (q : List Char) (hq : noWild q = true) :
    ∀ t : List Char, likeMatch (q ++ ['%']) t = true ↔
      ∃ pre, pre <+: t ∧ pre.map Char.toLower = q.map Char.toLower := by
  induction q with
  | nil =>
    intro t
    constructor
    · intro _
      exact ⟨[], List.nil_prefix, rfl⟩
    · intro _
      exact (likeMatch_percent [] t).mpr ⟨[], List.nil_suffix, rfl⟩
  | cons c q ih =>
    obtain ⟨hcp, hcu, hqr⟩ := noWild_cons.mp hq
    have hcp' : (c == '%') = false := beq_eq_false_iff_ne.mpr hcp
    have hcu' : (c == '_') = false := beq_eq_false_iff_ne.mpr hcu
    intro t
    cases t with
    | nil =>
      rw [List.cons_append, likeMatch_cons_nil hcp']
      simp [List.prefix_nil]
    | cons d t' =>
      rw [List.cons_append, likeMatch_cons_cons hcp', Bool.and_eq_true]
      constructor
      · rintro ⟨hcd, hrest⟩
        rw [hcu'] at hcd
        simp only [Bool.false_or, beq_iff_eq] at hcd
        obtain ⟨pre, hpre, hmap⟩ := (ih hqr t').mp hrest
        refine ⟨d :: pre, List.cons_prefix_cons.mpr ⟨rfl, hpre⟩, ?_⟩
        simp only [List.map_cons, hmap, hcd]
      · rintro ⟨pre, hpre, hmap⟩
        cases pre with
        | nil => exact absurd hmap (by simp)
        | cons e pre' =>
          obtain ⟨hed, hpre'⟩ := List.cons_prefix_cons.mp hpre
          simp only [List.map_cons, List.cons.injEq] at hmap
          obtain ⟨hmap1, hmap2⟩ := hmap
          subst hed
          constructor
          · rw [hcu']
            simp only [Bool.false_or, beq_iff_eq]
            exact hmap1.symm
          · exact (ih hqr t').mpr ⟨pre', hpre', hmap2⟩

/-- For a wildcard-free query q, the ILIKE pattern `%q%` built by the
search endpoint accepts exactly the strings that contain q as a
case-insensitive substring. -/
theorem likeMatch_pat_iff (q : String) (hq : noWild q.data = true)
    (s : String) : likeMatch (likePat q) s.data = true ↔ containsCI q s := by
  unfold likePat containsCI
  rw [likeMatch_percent]
  constructor
  · rintro ⟨suf, hsuf, hm⟩
    obtain ⟨pre, hpre, hmap⟩ := (likeMatch_plain_append_percent q.data hq suf).mp hm
    rw [List.infix_iff_prefix_suffix]
    refine ⟨suf.map Char.toLower, ?_, List.IsSuffix.map _ hsuf⟩
    rw [← hmap]
    exact List.IsPrefix.map _ hpre
  · intro hinf
    rw [List.infix_iff_prefix_suffix] at hinf
    obtain ⟨t, hpre, hsuf⟩ := hinf
    obtain ⟨r, hr⟩ := hsuf
    obtain ⟨u, hu⟩ := hpre
    have hsplit : List.map Char.toLower s.data =
        r ++ (List.map Char.toLower q.data ++ u) := by
      rw [← hu] at hr
      exact hr.symm
    obtain ⟨s1, s2, hs12, _, hm2⟩ := List.map_eq_append_iff.mp hsplit
    obtain ⟨p1, p2, hp12, hmq, _⟩ := List.map_eq_append_iff.mp hm2
    refine ⟨s2, ⟨s1, hs12.symm⟩, ?_⟩
    exact (likeMatch_plain_append_percent q.data hq s2).mpr
      ⟨p1, ⟨p2, hp12.symm⟩, hmq⟩

/-- C9 counterexample: the search query is spliced raw into an ILIKE
pattern, so its SQL wildcards stay active: searching "h_llo" returns
the post titled "Hello" although "h_llo" is not a case-insensitive
substring of its title or body. -/
theorem search_wildcard_not_substring :
    search_posts exDB "h_llo" 0 20 = [exPostHello] ∧
    ¬ specSearchHit "h_llo" exPostHello := by
  constructor
  · decide
  · decide

/-- C9 amended: for every query without SQL LIKE wildcard characters
(`%`, `_`) and a page window covering the whole table, the search
returns exactly the posts whose title or body contains the query as a
case-insensitive substring, ordered newest created_at first. -/
theorem search_posts_amended (db : DB) (q : String) (lim : Nat)
    (hq : noWild q.data = true) (hlim : db.posts.length ≤ lim) :
    (search_posts db q 0 lim).Perm
      (db.posts.filter (fun p => decide (specSearchHit q p))) ∧
    List.Sorted postAfter (search_posts db q 0 lim) := by
  have hfeq : db.posts.filter (searchHit q) =
      db.posts.filter (fun p => decide (specSearchHit q p)) := by
    apply List.filter_congr
    intro p _
    rw [Bool.eq_iff_iff, decide_eq_true_iff]
    unfold searchHit specSearchHit
    rw [Bool.or_eq_true]
    constructor
    · rintro (h | h)
      · exact Or.inl ((likeMatch_pat_iff q hq p.title).mp h)
      · exact Or.inr ((likeMatch_pat_iff q hq p.content).mp h)
    · rintro (h | h)
      · exact Or.inl ((likeMatch_pat_iff q hq p.title).mpr h)
      · exact Or.inr ((likeMatch_pat_iff q hq p.content).mpr h)
  have hlen : (sortPostsDesc (db.posts.filter (searchHit q))).length ≤ lim := by
    unfold sortPostsDesc
    rw [List.length_insertionSort]
    exact le_trans (List.length_filter_le _ _) hlim
  have hsearch : search_posts db q 0 lim =
      sortPostsDesc (db.posts.filter (searchHit q)) := by
    unfold search_posts
    rw [List.drop_zero, List.take_of_length_le hlen]
  rw [hsearch]
  constructor
  · rw [hfeq]
    unfold sortPostsDesc
    exact List.perm_insertionSort postAfter _
  · exact List.sorted_insertionSort postAfter _

/-- Witness for C9's amended theorem: the wildcard-free scenario query
"hel" finds the post titled "Hello". -/
theorem search_posts_amended_witness :
    (search_posts exDB "hel" 0 20).Perm
      (exDB.posts.filter (fun p => decide (specSearchHit "hel" p))) ∧
    List.Sorted postAfter (search_posts exDB "hel" 0 20) :=
  search_posts_amended exDB "hel" 20 (by decide) (by decide)

end Chyrp
